import Mathlib

/-!
Verification of the lootbox MCP client subsystem: config validation
(mcp_config), client lifecycle management (mcp_client_manager) and schema
fetching/caching (mcp_schema_fetcher).

The JavaScript runtime values handled by the validator are modelled by
`JsonValue` (the shape of data produced by JSON.parse).  JavaScript object
semantics are kept: `typeof x === "object"` is true for plain objects and
for arrays, `Object.entries` of an array yields index/element pairs, and
property lookup on an array with a non-index string key yields undefined
(modelled as `none`).
-/

/-- A JSON-like value, the shape of data produced by JSON.parse. -/
inductive JsonValue where
  | null
  | bool (b : Bool)
  | num (n : Int)
  | str (s : String)
  | arr (elems : List JsonValue)
  | obj (fields : List (String × JsonValue))

namespace JsonValue

/-- JavaScript test `typeof v === "object" && v !== null`: true for plain
objects and arrays, false for null and primitives. -/
def isNonNullObject : JsonValue → Bool
  | obj _ => true
  | arr _ => true
  | _ => false

/-- Is this value a string? (`typeof v === "string"`). -/
def isStringVal : JsonValue → Bool
  | str _ => true
  | _ => false

/-- The string carried by a string value (unreachable default otherwise). -/
def strOf : JsonValue → String
  | str s => s
  | _ => ""

end JsonValue

/-- First-match lookup in an association list (JavaScript object property
lookup / Map.get; keys are unique in values coming from JSON.parse). -/
def lookupKey {α : Type} : List (String × α) → String → Option α
  | [], _ => none
  | p :: rest, k => if p.1 = k then some p.2 else lookupKey rest k

/-- Property access `v[k]`: a field of a plain object; undefined (`none`) on
arrays (a name like "mcpServers" is not an index) and primitives. -/
def getField : JsonValue → String → Option JsonValue
  | JsonValue.obj fields, k => lookupKey fields k
  | _, _ => none

/-- `Object.entries(v)`: key/value pairs of an object, index/element pairs
of an array, empty otherwise. -/
def entriesOf : JsonValue → List (String × JsonValue)
  | JsonValue.obj fields => fields
  | JsonValue.arr elems => elems.enum.map (fun p => (toString p.1, p.2))
  | _ => []

/-- `Object.values(v)`. -/
def valuesOf (v : JsonValue) : List JsonValue :=
  (entriesOf v).map Prod.snd

/-- JavaScript `map.set(k, v)` / `record[k] = v`: overwrite in place when the
key exists, append otherwise. -/
def setKey {α : Type} (m : List (String × α)) (k : String) (v : α) :
    List (String × α) :=
  if m.any (fun p => decide (p.1 = k)) then
    m.map (fun p => if p.1 = k then (k, v) else p)
  else m ++ [(k, v)]

/-- Characters the sanitizer keeps: the class [A-Za-z0-9_]. -/
def isIdentChar (c : Char) : Bool :=
  c.isAlpha || c.isDigit || c == '_'

/-- One character of the replacement performed by
`name.replace(/[^a-zA-Z0-9_]/g, "_")`. -/
def sanitizeChar (c : Char) : Char :=
  if isIdentChar c then c else '_'

/-- mcp_config.ts `sanitizeServerName`: replace every character outside
[A-Za-z0-9_] with an underscore (the regex replacement acts
character-by-character). -/
def sanitizeServerName (name : String) : String :=
  String.mk (name.data.map sanitizeChar)

/-- The HTTP-family transports. -/
inductive HttpKind where
  | streamableHttp
  | sse
  deriving DecidableEq

/-- mcp_config.ts `McpServerConfig`: the validated tagged union.  The stdio
variant carries command/args/env; the HTTP-family variant carries its kind,
url and optional headers. -/
inductive McpServerConfig where
  | stdio (command : String) (args : List String)
      (env : Option (List (String × String)))
  | http (kind : HttpKind) (url : String)
      (headers : Option (List (List (String × String))))
  deriving DecidableEq

/-- mcp_config.ts `McpConfigFile`. -/
structure McpConfigFile where
  mcpServers : List (String × McpServerConfig)
  deriving DecidableEq

/-- Boolean observer for Except: did the computation throw? -/
def isErr {ε α : Type} : Except ε α → Bool
  | Except.error _ => true
  | Except.ok _ => false

/-- The bridge-sentinel skip test of validateMcpConfig lines 87-93: the entry
is an object whose command property is the string mcp-rpc-bridge. -/
def isBridgeEntry (sc : JsonValue) : Bool :=
  sc.isNonNullObject &&
    match getField sc "command" with
    | some (JsonValue.str s) => s == "mcp-rpc-bridge"
    | _ => false

/-- Lines 100-109: `(cfg.transport as string | undefined) ?? "stdio"`
followed by the membership test.  `some t` is the effective transport kind;
`none` means the membership test throws.  Nullish coalescing makes both an
absent and a null transport default to stdio. -/
def effectiveTransport (sc : JsonValue) : Option String :=
  match getField sc "transport" with
  | none => some "stdio"
  | some JsonValue.null => some "stdio"
  | some (JsonValue.str t) =>
    if t == "stdio" || t == "streamable_http" || t == "sse" then some t
    else none
  | some _ => none

/-- The stdio branch of validateMcpConfig (lines 113-145): command must be a
string, args an array of strings, and a present env an object with string
values. -/
def validateStdio (sc : JsonValue) : Except String McpServerConfig :=
  match getField sc "command" with
  | some (JsonValue.str cmd) =>
    match getField sc "args" with
    | some (JsonValue.arr xs) =>
      if xs.all JsonValue.isStringVal then
        match getField sc "env" with
        | none => Except.ok (McpServerConfig.stdio cmd (xs.map JsonValue.strOf) none)
        | some e =>
          if e.isNonNullObject then
            if (valuesOf e).all JsonValue.isStringVal then
              Except.ok (McpServerConfig.stdio cmd (xs.map JsonValue.strOf)
                (some ((entriesOf e).map (fun p => (p.1, p.2.strOf)))))
            else Except.error "Server env values must be strings"
          else Except.error "Server env must be an object"
      else Except.error "Server args must be array of strings"
    | _ => Except.error "Server must have args array"
  | _ => Except.error "Server must have command string"

/-- The HTTP-family branch of validateMcpConfig (lines 146-171): url must be
a string, and present headers an array of objects with string values. -/
def validateHttp (kind : HttpKind) (sc : JsonValue) :
    Except String McpServerConfig :=
  match getField sc "url" with
  | some (JsonValue.str url) =>
    match getField sc "headers" with
    | none => Except.ok (McpServerConfig.http kind url none)
    | some (JsonValue.arr hs) =>
      if hs.all (fun hv => hv.isNonNullObject &&
          (valuesOf hv).all JsonValue.isStringVal) then
        Except.ok (McpServerConfig.http kind url
          (some (hs.map (fun hv => (entriesOf hv).map (fun p => (p.1, p.2.strOf))))))
      else Except.error "Server headers must be array of string record objects"
    | some _ => Except.error "Server headers must be array of string record objects"
  | _ => Except.error "Server must have url string"

/-- Validation of a single per-server entry (validateMcpConfig loop body,
lines 85-171): `ok none` when the entry is the skipped bridge sentinel,
`ok (some cfg)` on success, `error` on a structural violation. -/
def validateServerEntry (sc : JsonValue) : Except String (Option McpServerConfig) :=
  if isBridgeEntry sc then Except.ok none
  else if sc.isNonNullObject then
    match effectiveTransport sc with
    | none =>
      Except.error "Server transport must be stdio, streamable_http, or sse"
    | some t =>
      if t == "stdio" then (validateStdio sc).map some
      else if t == "streamable_http" then
        (validateHttp HttpKind.streamableHttp sc).map some
      else (validateHttp HttpKind.sse sc).map some
  else Except.error "Server config must be an object"

/-- The validation loop over all server entries, accumulating the validated
mapping; keys are sanitized before insertion (lines 173-178). -/
def validateServers :
    List (String × JsonValue) → List (String × McpServerConfig) →
    Except String (List (String × McpServerConfig))
  | [], acc => Except.ok acc
  | (name, sc) :: rest, acc =>
    match validateServerEntry sc with
    | Except.error e => Except.error e
    | Except.ok none => validateServers rest acc
    | Except.ok (some cfg) =>
      validateServers rest (setKey acc (sanitizeServerName name) cfg)

/-- mcp_config.ts `validateMcpConfig` (lines 64-182). -/
def validateMcpConfig (config : JsonValue) : Except String McpConfigFile :=
  if config.isNonNullObject then
    match getField config "mcpServers" with
    | none => Except.error "MCP config must have mcpServers field"
    | some m =>
      if m.isNonNullObject then
        (validateServers (entriesOf m) []).map McpConfigFile.mk
      else Except.error "mcpServers must be an object"
  else Except.error "MCP config must be an object"

/-!
mcp_client_manager.ts.  A protocol session handle is opaque; connection
outcomes depend on the outside world (process spawning, network), modelled
by a `ConnectEnv` oracle: `parseUrl` is the `new URL(...)` constructor
(`none` = it throws) and `connect` is the combined `new Client(...)` +
`client.connect(transport)` step (`none` = the handshake throws).  Each
`connectClient` call performs its map updates synchronously after its last
await, so a batch of concurrent calls on distinct names is observationally a
fold over some permutation of the entries.
-/

/-- A live protocol session handle, kept abstract as a bare identifier. -/
abbrev Client : Type := Nat

/-- A concrete transport as built by connectClient lines 58-89. -/
inductive Transport where
  | stdio (command : String) (args : List String) (env : List (String × String))
  | streamableHttp (url : String)
  | sse (url : String)

/-- JavaScript spread `{...a, ...b}`: entries of a, then entries of b with
b overriding. -/
def mergeEnv (a b : List (String × String)) : List (String × String) :=
  b.foldl (fun acc p => setKey acc p.1 p.2) a

/-- The outside world as seen by connectClient. -/
structure ConnectEnv where
  denoEnv : List (String × String)
  parseUrl : String → Option String
  connect : String → Transport → Option Client

/-- Transport selection, connectClient lines 58-89.  For a validated config
the stdio variant always carries command and args, so the only failure
point is URL parsing for the HTTP-family variants. -/
def chooseTransport (E : ConnectEnv) (config : McpServerConfig) :
    Except String Transport :=
  match config with
  | McpServerConfig.stdio cmd args env =>
    Except.ok (Transport.stdio cmd args (mergeEnv E.denoEnv (env.getD [])))
  | McpServerConfig.http kind url _ =>
    match E.parseUrl url with
    | some u =>
      Except.ok (match kind with
        | HttpKind.streamableHttp => Transport.streamableHttp u
        | HttpKind.sse => Transport.sse u)
    | none => Except.error "Invalid URL"

/-- The three-valued connection status reported by getConnectionStatus;
the status table itself only ever stores connected or failed. -/
inductive ConnectionStatus where
  | connected
  | failed
  | unknown
  deriving DecidableEq

/-- mcp_client_manager.ts `McpClientManager` state: the live-session table
and the status table. -/
structure McpClientManager where
  clients : List (String × Client)
  connectionStatus : List (String × ConnectionStatus)

/-- The constructor: both tables empty. -/
def emptyManager : McpClientManager := { clients := [], connectionStatus := [] }

/-- Does the whole try-block of connectClient (transport construction plus
session handshake) succeed in environment E? -/
def attemptSucceeds (E : ConnectEnv) (serverName : String)
    (config : McpServerConfig) : Bool :=
  match chooseTransport E config with
  | Except.ok t => (E.connect serverName t).isSome
  | Except.error _ => false

/-- mcp_client_manager.ts `connectClient` (lines 50-114): on success store
the session and set status connected; on any failure the catch block sets
status failed and stores nothing — the method never throws to its caller,
which is why its total return type is just the updated state. -/
def connectClient (E : ConnectEnv) (st : McpClientManager)
    (serverName : String) (config : McpServerConfig) : McpClientManager :=
  match chooseTransport E config with
  | Except.error _ =>
    { st with connectionStatus := setKey st.connectionStatus serverName ConnectionStatus.failed }
  | Except.ok t =>
    match E.connect serverName t with
    | none =>
      { st with connectionStatus := setKey st.connectionStatus serverName ConnectionStatus.failed }
    | some c =>
      { clients := setKey st.clients serverName c,
        connectionStatus := setKey st.connectionStatus serverName ConnectionStatus.connected }

/-- mcp_client_manager.ts `initializeClients` (lines 22-45): run
connectClient for every entry and wait for all to settle.  The list argument
is the completion order of the individual attempts; theorems quantify over
every permutation of the config entries. -/
def initializeClients (E : ConnectEnv) (st : McpClientManager)
    (entries : List (String × McpServerConfig)) : McpClientManager :=
  entries.foldl (fun s p => connectClient E s p.1 p.2) st

/-- mcp_client_manager.ts `getClient`. -/
def getClient (st : McpClientManager) (serverName : String) : Option Client :=
  lookupKey st.clients serverName

/-- mcp_client_manager.ts `getConnectedServerNames`. -/
def getConnectedServerNames (st : McpClientManager) : List String :=
  st.clients.map Prod.fst

/-- mcp_client_manager.ts `getConnectionStatus`: status-table lookup,
defaulting to unknown. -/
def getConnectionStatus (st : McpClientManager) (serverName : String) :
    ConnectionStatus :=
  (lookupKey st.connectionStatus serverName).getD ConnectionStatus.unknown

/-- mcp_client_manager.ts `getAllConnectionStatuses`: a snapshot of the
status table. -/
def getAllConnectionStatuses (st : McpClientManager) :
    List (String × ConnectionStatus) :=
  st.connectionStatus

/-- mcp_client_manager.ts `disconnectAll` (lines 155-176): close every live
session (close failures are caught and logged) and clear both tables. -/
def disconnectAll (_st : McpClientManager) : McpClientManager :=
  { clients := [], connectionStatus := [] }

/-- The public operations of the Connection Manager, for temporal claims. -/
inductive ManagerOp where
  | connectClient (serverName : String) (config : McpServerConfig)
  | disconnectAll
  | getClient (serverName : String)
  | getConnectedServerNames
  | getConnectionStatus (serverName : String)
  | getAllConnectionStatuses

/-- State transition of one Connection Manager operation; the query
operations do not mutate the tables. -/
def stepManager (E : ConnectEnv) (st : McpClientManager) :
    ManagerOp → McpClientManager
  | ManagerOp.connectClient n c => connectClient E st n c
  | ManagerOp.disconnectAll => disconnectAll st
  | ManagerOp.getClient _ => st
  | ManagerOp.getConnectedServerNames => st
  | ManagerOp.getConnectionStatus _ => st
  | ManagerOp.getAllConnectionStatuses => st

/-!
mcp_schema_fetcher.ts.  A remote listing call either throws, returns a
response whose tools/resources field is missing or not an array, or returns
a list of raw entries; `FetchResult` enumerates these outcomes.
-/

/-- Outcome of one remote listing call (`client.listTools()` or
`client.listResources()`): the call threw, the response field was missing or
not an array, or a list of entries came back. -/
inductive FetchResult (α : Type) where
  | failure
  | badShape
  | ok (items : List α)

/-- Did the listing call fail to produce a usable list? -/
def FetchResult.failed {α : Type} : FetchResult α → Bool
  | FetchResult.ok _ => false
  | _ => true

/-- A raw tool entry as returned by a server's tool listing. -/
structure RawTool where
  name : String
  description : Option String
  inputSchema : JsonValue

/-- A raw resource entry as returned by a server's resource listing.  The
uriTemplate property may hold any value; the fetcher only keeps it when it
is a string. -/
structure RawResource where
  name : String
  description : Option String
  uri : Option String
  uriTemplate : Option JsonValue
  mimeType : Option String

/-- mcp_schema_fetcher.ts `McpToolSchema`. -/
structure McpToolSchema where
  name : String
  originalName : String
  description : Option String
  inputSchema : JsonValue

/-- mcp_schema_fetcher.ts `McpResourceSchema`. -/
structure McpResourceSchema where
  name : String
  originalName : String
  description : Option String
  uri : Option String
  uriTemplate : Option String
  mimeType : Option String

/-- mcp_schema_fetcher.ts `McpServerSchemas`. -/
structure McpServerSchemas where
  serverName : String
  tools : List McpToolSchema
  resources : List McpResourceSchema

/-- mcp_schema_fetcher.ts `McpSchemaFetcher` state: the schema cache. -/
structure McpSchemaFetcher where
  cache : List (String × McpServerSchemas)

/-- mcp_schema_fetcher.ts `sanitizeIdentifier` (line 157): same
character-for-character replacement as sanitizeServerName. -/
def sanitizeIdentifier (s : String) : String :=
  String.mk (s.data.map sanitizeChar)

/-- The per-tool mapping inside fetchTools (lines 78-83). -/
def mkToolSchema (t : RawTool) : McpToolSchema :=
  { name := sanitizeIdentifier t.name
    originalName := t.name
    description := t.description
    inputSchema := t.inputSchema }

/-- The per-resource mapping inside fetchResources (lines 110-121);
uriTemplate is kept only when present and string-typed. -/
def mkResourceSchema (r : RawResource) : McpResourceSchema :=
  { name := sanitizeIdentifier r.name
    originalName := r.name
    description := r.description
    uri := r.uri
    uriTemplate :=
      match r.uriTemplate with
      | some (JsonValue.str s) => some s
      | _ => none
    mimeType := r.mimeType }

/-- mcp_schema_fetcher.ts `fetchTools` (lines 64-91): an empty list on a
thrown listing call or a malformed response, the mapped tools otherwise. -/
def fetchTools (resp : FetchResult RawTool) : List McpToolSchema :=
  match resp with
  | FetchResult.failure => []
  | FetchResult.badShape => []
  | FetchResult.ok ts => ts.map mkToolSchema

/-- mcp_schema_fetcher.ts `fetchResources` (lines 96-129). -/
def fetchResources (resp : FetchResult RawResource) : List McpResourceSchema :=
  match resp with
  | FetchResult.failure => []
  | FetchResult.badShape => []
  | FetchResult.ok rs => rs.map mkResourceSchema

/-- mcp_schema_fetcher.ts `fetchSchemas` (lines 37-59): fetch tools, fetch
resources, assemble the ServerSchemas record, store it in the cache under
the server name and return it.  The two listing outcomes are the oracle for
the two remote calls. -/
def fetchSchemas (f : McpSchemaFetcher) (serverName : String)
    (toolsResp : FetchResult RawTool) (resourcesResp : FetchResult RawResource) :
    McpSchemaFetcher × McpServerSchemas :=
  let tools := fetchTools toolsResp
  let resources := fetchResources resourcesResp
  let schemas : McpServerSchemas :=
    { serverName := serverName, tools := tools, resources := resources }
  ({ cache := setKey f.cache serverName schemas }, schemas)

/-- mcp_schema_fetcher.ts `getCachedSchemas`. -/
def getCachedSchemas (f : McpSchemaFetcher) (serverName : String) :
    Option McpServerSchemas :=
  lookupKey f.cache serverName

/-- mcp_schema_fetcher.ts `getAllSchemas` (lines 141-144): the enumerating
body is commented out in the source; the call answers the empty list for
every cache state. -/
def getAllSchemas (_f : McpSchemaFetcher) : List McpServerSchemas :=
  []

/-- mcp_schema_fetcher.ts `hasCachedSchemas`. -/
def hasCachedSchemas (f : McpSchemaFetcher) (serverName : String) : Bool :=
  (lookupKey f.cache serverName).isSome

/-!
Spec-side predicates for the validator claim (C4).  These are written from
the words of the claim, to be compared with `validateMcpConfig`;
`claimedConfigViolation` is the claim as stated, `specConfigViolation` the
amended reading (a null transport counts as absent, and a skipped bridge
entry is exempt from the per-entry checks).
-/

/-- Spec wording: is this entry a stdio entry (transport absent, null or
the string stdio)? -/
def specIsStdioEntry (sc : JsonValue) : Bool :=
  match getField sc "transport" with
  | none => true
  | some JsonValue.null => true
  | some (JsonValue.str t) => t == "stdio"
  | some _ => false

/-- Spec wording: is this entry an HTTP-family entry? -/
def specIsHttpEntry (sc : JsonValue) : Bool :=
  match getField sc "transport" with
  | some (JsonValue.str t) => t == "streamable_http" || t == "sse"
  | _ => false

/-- Claim wording: a transport field is present but is not one of stdio,
streamable_http, sse.  (As stated: a present null transport violates.) -/
def claimedTransportViolation (sc : JsonValue) : Bool :=
  match getField sc "transport" with
  | none => false
  | some (JsonValue.str t) =>
    !(t == "stdio" || t == "streamable_http" || t == "sse")
  | some _ => true

/-- Amended wording: a transport field is present with a non-null value that
is not one of the three recognized kinds. -/
def specTransportViolation (sc : JsonValue) : Bool :=
  match getField sc "transport" with
  | none => false
  | some JsonValue.null => false
  | some (JsonValue.str t) =>
    !(t == "stdio" || t == "streamable_http" || t == "sse")
  | some _ => true

/-- Claim wording for a stdio entry: command is not a string, or args is not
an array of strings, or a present env is not an object of string values. -/
def specStdioViolation (sc : JsonValue) : Bool :=
  (match getField sc "command" with
   | some (JsonValue.str _) => false
   | _ => true) ||
  (match getField sc "args" with
   | some (JsonValue.arr xs) => !(xs.all JsonValue.isStringVal)
   | _ => true) ||
  (match getField sc "env" with
   | none => false
   | some e => !(e.isNonNullObject && (valuesOf e).all JsonValue.isStringVal))

/-- Claim wording for an HTTP-family entry: url is not a string, or a
present headers is not an array of objects whose values are all strings. -/
def specHttpViolation (sc : JsonValue) : Bool :=
  (match getField sc "url" with
   | some (JsonValue.str _) => false
   | _ => true) ||
  (match getField sc "headers" with
   | none => false
   | some (JsonValue.arr hs) =>
     !(hs.all (fun hv => hv.isNonNullObject &&
        (valuesOf hv).all JsonValue.isStringVal))
   | some _ => true)

/-- Per-entry structural violation, claim as stated (no exemption for the
skipped bridge entry, null transport counts as present). -/
def claimedEntryViolation (sc : JsonValue) : Bool :=
  !sc.isNonNullObject ||
  claimedTransportViolation sc ||
  (specIsStdioEntry sc && specStdioViolation sc) ||
  (specIsHttpEntry sc && specHttpViolation sc)

/-- Per-entry structural violation, amended: a bridge-sentinel entry is
skipped without validation, and a null transport counts as absent. -/
def specEntryViolation (sc : JsonValue) : Bool :=
  !isBridgeEntry sc &&
  (!sc.isNonNullObject ||
   specTransportViolation sc ||
   (specIsStdioEntry sc && specStdioViolation sc) ||
   (specIsHttpEntry sc && specHttpViolation sc))

/-- Claim wording: the top-level value is not an object or lacks an
mcpServers object field. -/
def claimedTopLevelViolation (c : JsonValue) : Bool :=
  !c.isNonNullObject ||
  (match getField c "mcpServers" with
   | some m => !m.isNonNullObject
   | none => true)

/-- The configuration-level structural violation, claim as stated. -/
def claimedConfigViolation (c : JsonValue) : Bool :=
  claimedTopLevelViolation c ||
  (match getField c "mcpServers" with
   | some m => (entriesOf m).any (fun p => claimedEntryViolation p.2)
   | none => false)

/-- The configuration-level structural violation, amended. -/
def specConfigViolation (c : JsonValue) : Bool :=
  claimedTopLevelViolation c ||
  (match getField c "mcpServers" with
   | some m => (entriesOf m).any (fun p => specEntryViolation p.2)
   | none => false)

/-!
Association-list lemmas for `lookupKey` / `setKey`.
-/

lemma lookupKey_append {α : Type} (m m1 : List (String × α)) (k : String) :
    lookupKey (m ++ m1) k =
      match lookupKey m k with
      | some v => some v
      | none => lookupKey m1 k := by
  induction m with
  | nil => simp [lookupKey]
  | cons p rest ih =>
    by_cases hp : p.1 = k
    · simp [lookupKey, hp]
    · simp [lookupKey, hp, ih]

lemma lookupKey_not_mem {α : Type} (m : List (String × α)) (k : String)
    (h : k ∉ m.map Prod.fst) : lookupKey m k = none := by
  induction m with
  | nil => rfl
  | cons p rest ih =>
    simp only [List.map_cons, List.mem_cons, not_or] at h
    have hp : ¬ p.1 = k := fun hh => h.1 hh.symm
    simp [lookupKey, hp, ih h.2]

lemma setKey_absent {α : Type} (m : List (String × α)) (k : String) (v : α)
    (h : k ∉ m.map Prod.fst) : setKey m k v = m ++ [(k, v)] := by
  have hany : (m.any fun p => decide (p.1 = k)) = false := by
    simp only [List.any_eq_false, decide_eq_true_eq]
    intro p hp hpk
    exact h (List.mem_map.mpr ⟨p, hp, hpk⟩)
  simp [setKey, hany]

lemma lookupKey_mapSet_self {α : Type} (k : String) (v : α) :
    ∀ m : List (String × α), (m.any fun p => decide (p.1 = k)) = true →
      lookupKey (m.map fun p => if p.1 = k then (k, v) else p) k = some v := by
  intro m
  induction m with
  | nil => intro h; simp at h
  | cons p rest ih =>
    intro hany
    by_cases hp : p.1 = k
    · simp [lookupKey, hp]
    · simp only [List.any_cons, decide_eq_true_eq, Bool.or_eq_true] at hany
      have hrest : (rest.any fun p => decide (p.1 = k)) = true := by
        rcases hany with h1 | h2
        · exact absurd h1 hp
        · exact h2
      simp only [List.map_cons, if_neg hp]
      simp only [lookupKey, if_neg hp]
      exact ih hrest

lemma lookupKey_mapSet_ne {α : Type} (k k1 : String) (v : α) (h : k1 ≠ k) :
    ∀ m : List (String × α),
      lookupKey (m.map fun p => if p.1 = k then (k, v) else p) k1 =
        lookupKey m k1 := by
  intro m
  induction m with
  | nil => rfl
  | cons p rest ih =>
    by_cases hp : p.1 = k
    · have hk : ¬ k = k1 := fun hh => h hh.symm
      have hp1 : ¬ p.1 = k1 := by rw [hp]; exact hk
      simp only [List.map_cons, if_pos hp]
      simp only [lookupKey, if_neg hk, if_neg hp1]
      exact ih
    · simp only [List.map_cons, if_neg hp]
      by_cases hp1 : p.1 = k1
      · simp [lookupKey, hp1]
      · simp only [lookupKey, if_neg hp1]
        exact ih

lemma lookupKey_setKey_self {α : Type} (m : List (String × α)) (k : String)
    (v : α) : lookupKey (setKey m k v) k = some v := by
  unfold setKey
  split
  · exact lookupKey_mapSet_self k v m (by assumption)
  · rename_i hany
    have hnm : k ∉ m.map Prod.fst := by
      intro hmem
      rcases List.mem_map.mp hmem with ⟨p, hp, hpk⟩
      have : (m.any fun p => decide (p.1 = k)) = true :=
        List.any_eq_true.mpr ⟨p, hp, by simp [hpk]⟩
      exact hany this
    rw [lookupKey_append, lookupKey_not_mem m k hnm]
    simp [lookupKey]

lemma lookupKey_setKey_ne {α : Type} (m : List (String × α)) (k k1 : String)
    (v : α) (h : k1 ≠ k) : lookupKey (setKey m k v) k1 = lookupKey m k1 := by
  unfold setKey
  split
  · exact lookupKey_mapSet_ne k k1 v h m
  · rw [lookupKey_append]
    have hk : ¬ k = k1 := fun hh => h hh.symm
    cases hl : lookupKey m k1 with
    | some w => rfl
    | none => simp [lookupKey, hk]

/-!
Characterization of `connectClient`.
-/

lemma connectClient_success {E : ConnectEnv} {st : McpClientManager}
    {n : String} {c : McpServerConfig} (h : attemptSucceeds E n c = true) :
    ∃ cl : Client, connectClient E st n c =
      { clients := setKey st.clients n cl,
        connectionStatus :=
          setKey st.connectionStatus n ConnectionStatus.connected } := by
  cases hct : chooseTransport E c with
  | error e =>
    simp only [attemptSucceeds, hct] at h
    exact Bool.noConfusion h
  | ok t =>
    cases hcn : E.connect n t with
    | none =>
      simp only [attemptSucceeds, hct, hcn, Option.isSome] at h
      exact Bool.noConfusion h
    | some cl =>
      refine ⟨cl, ?_⟩
      simp only [connectClient, hct, hcn]

lemma connectClient_failure_state {E : ConnectEnv} {st : McpClientManager}
    {n : String} {c : McpServerConfig} (h : attemptSucceeds E n c = false) :
    connectClient E st n c =
      { st with connectionStatus :=
          setKey st.connectionStatus n ConnectionStatus.failed } := by
  cases hct : chooseTransport E c with
  | error e => simp only [connectClient, hct]
  | ok t =>
    cases hcn : E.connect n t with
    | none => simp only [connectClient, hct, hcn]
    | some cl =>
      simp only [attemptSucceeds, hct, hcn, Option.isSome] at h
      exact Bool.noConfusion h

/-- Claim C2: connectClient never throws to its caller (it is a total
function into the updated manager state); on any failure during transport
selection, transport construction or the session handshake it sets that
server's status to failed and stores no session for that server name. -/
theorem connectClient_failure_no_throw (E : ConnectEnv) (st : McpClientManager)
    (serverName : String) (config : McpServerConfig)
    (h : attemptSucceeds E serverName config = false) :
    getConnectionStatus (connectClient E st serverName config) serverName =
      ConnectionStatus.failed ∧
    (connectClient E st serverName config).clients = st.clients := by
  rw [connectClient_failure_state h]
  refine ⟨?_, rfl⟩
  unfold getConnectionStatus
  rw [lookupKey_setKey_self]
  rfl

/-- An environment in which stdio transports connect and every URL parse
fails: used for concrete scenarios. -/
def exEnv : ConnectEnv :=
  { denoEnv := []
    parseUrl := fun _ => none
    connect := fun _ t =>
      match t with
      | Transport.stdio _ _ _ => some 0
      | _ => none }

/-- A valid stdio config that connects in `exEnv`. -/
def exCfgOk : McpServerConfig := McpServerConfig.stdio "true" [] none

/-- An HTTP config whose URL parse fails in `exEnv`. -/
def exCfgBad : McpServerConfig := McpServerConfig.http HttpKind.sse "u" none

theorem connectClient_failure_no_throw_witness :
    attemptSucceeds exEnv "b" exCfgBad = false ∧
    (getConnectionStatus (connectClient exEnv emptyManager "b" exCfgBad) "b" =
        ConnectionStatus.failed ∧
      (connectClient exEnv emptyManager "b" exCfgBad).clients =
        emptyManager.clients) :=
  ⟨rfl, connectClient_failure_no_throw exEnv emptyManager "b" exCfgBad rfl⟩

/-- The manager state after connecting server a with a succeeding stdio
config in `exEnv`. -/
def exSt1 : McpClientManager :=
  stepManager exEnv emptyManager (ManagerOp.connectClient "a" exCfgOk)

/-- Claim C3 counterexample: a second connectClient call for the same name
is an operation other than disconnectAll that moves the name a out of
connected (to failed), so the claim as stated is false.  Here a first
connects via stdio, then a re-connect attempt with a bad HTTP config
overwrites the status. -/
theorem status_exit_counterexample :
    getConnectionStatus exSt1 "a" = ConnectionStatus.connected ∧
    getConnectionStatus
        (stepManager exEnv exSt1 (ManagerOp.connectClient "a" exCfgBad)) "a" =
      ConnectionStatus.failed := by
  constructor <;> rfl

/-- Claim C3 (amended): a server name's status changes only through
disconnectAll, which empties the table so the name reverts to unknown, or
through a subsequent connect attempt for that same name (which overwrites
the stored status with the new attempt's outcome); no query operation and no
connect attempt for a different name changes it. -/
theorem status_exit_only_disconnect_or_reconnect (E : ConnectEnv)
    (st : McpClientManager) (op : ManagerOp) (name : String)
    (hchange : getConnectionStatus (stepManager E st op) name ≠
      getConnectionStatus st name) :
    (op = ManagerOp.disconnectAll ∧
      getConnectionStatus (stepManager E st op) name =
        ConnectionStatus.unknown) ∨
    ∃ c, op = ManagerOp.connectClient name c := by
  cases op with
  | connectClient n c =>
    by_cases hn : n = name
    · subst hn
      exact Or.inr ⟨c, rfl⟩
    · exfalso
      apply hchange
      have hne : name ≠ n := fun hh => hn hh.symm
      show getConnectionStatus (connectClient E st n c) name =
        getConnectionStatus st name
      cases hs : attemptSucceeds E n c with
      | true =>
        rcases @connectClient_success E st n c hs with ⟨cl, hcc⟩
        rw [hcc]
        unfold getConnectionStatus
        rw [lookupKey_setKey_ne _ _ _ _ hne]
      | false =>
        rw [connectClient_failure_state hs]
        unfold getConnectionStatus
        rw [lookupKey_setKey_ne _ _ _ _ hne]
  | disconnectAll => exact Or.inl ⟨rfl, rfl⟩
  | getClient n => exact absurd rfl hchange
  | getConnectedServerNames => exact absurd rfl hchange
  | getConnectionStatus n => exact absurd rfl hchange
  | getAllConnectionStatuses => exact absurd rfl hchange

theorem status_exit_only_disconnect_or_reconnect_witness :
    (getConnectionStatus (stepManager exEnv exSt1 ManagerOp.disconnectAll) "a" ≠
      getConnectionStatus exSt1 "a") ∧
    ((ManagerOp.disconnectAll = ManagerOp.disconnectAll ∧
        getConnectionStatus (stepManager exEnv exSt1 ManagerOp.disconnectAll) "a" =
          ConnectionStatus.unknown) ∨
      ∃ c, ManagerOp.disconnectAll = ManagerOp.connectClient "a" c) :=
  ⟨by decide,
    status_exit_only_disconnect_or_reconnect exEnv exSt1 ManagerOp.disconnectAll
      "a" (by decide)⟩

/-- Claim C6: disconnectAll empties both the session table and the status
table, is idempotent, is safe from any state (including zero live sessions),
and afterwards every statusOf query answers unknown. -/
theorem disconnectAll_idempotent (st : McpClientManager) :
    (disconnectAll st).clients = [] ∧
    (disconnectAll st).connectionStatus = [] ∧
    disconnectAll (disconnectAll st) = disconnectAll st ∧
    ∀ name, getConnectionStatus (disconnectAll st) name =
      ConnectionStatus.unknown :=
  ⟨rfl, rfl, rfl, fun _ => rfl⟩

/-- Claim C8: the bulk all-cached-schemas accessor answers the empty list
for every cache state. -/
theorem getAllSchemas_empty (f : McpSchemaFetcher) : getAllSchemas f = [] :=
  rfl

/-- Claim C7: the two listing calls inside fetchSchemas fail independently:
a failed (or malformed) tool listing together with a successful resource
listing yields tools = [] and the resources mapped from the successful
listing, and symmetrically for a failed resource listing. -/
theorem fetchSchemas_listing_isolation (f : McpSchemaFetcher) (name : String)
    (tr : FetchResult RawTool) (rr : FetchResult RawResource) :
    (tr.failed = true → ∀ rs, rr = FetchResult.ok rs →
      (fetchSchemas f name tr rr).2.tools = [] ∧
      (fetchSchemas f name tr rr).2.resources = rs.map mkResourceSchema) ∧
    (rr.failed = true → ∀ ts, tr = FetchResult.ok ts →
      (fetchSchemas f name tr rr).2.resources = [] ∧
      (fetchSchemas f name tr rr).2.tools = ts.map mkToolSchema) := by
  constructor
  · intro ht rs hrr
    subst hrr
    cases tr <;> simp_all [fetchSchemas, fetchTools, fetchResources,
      FetchResult.failed]
  · intro hr ts htr
    subst htr
    cases rr <;> simp_all [fetchSchemas, fetchTools, fetchResources,
      FetchResult.failed]

/-- A concrete raw resource for witnesses. -/
def exRawResource : RawResource :=
  { name := "res-1"
    description := none
    uri := some "file:a"
    uriTemplate := none
    mimeType := none }

theorem fetchSchemas_listing_isolation_witness :
    (FetchResult.failure : FetchResult RawTool).failed = true ∧
    (FetchResult.ok [exRawResource] = FetchResult.ok [exRawResource]) ∧
    ((fetchSchemas (McpSchemaFetcher.mk []) "a" FetchResult.failure
        (FetchResult.ok [exRawResource])).2.tools = [] ∧
      (fetchSchemas (McpSchemaFetcher.mk []) "a" FetchResult.failure
        (FetchResult.ok [exRawResource])).2.resources =
        [exRawResource].map mkResourceSchema) :=
  ⟨rfl, rfl,
    (fetchSchemas_listing_isolation (McpSchemaFetcher.mk []) "a"
      FetchResult.failure (FetchResult.ok [exRawResource])).1 rfl
      [exRawResource] rfl⟩

/-- Claim C9: fetchSchemas always stores its result in the cache under the
server name and returns that same value, so hasCachedSchemas answers true
and getCachedSchemas answers exactly the returned record; when both listing
calls fail the stored entry has empty tools and empty resources. -/
theorem fetchSchemas_caches (f : McpSchemaFetcher) (name : String)
    (tr : FetchResult RawTool) (rr : FetchResult RawResource) :
    hasCachedSchemas (fetchSchemas f name tr rr).1 name = true ∧
    getCachedSchemas (fetchSchemas f name tr rr).1 name =
      some (fetchSchemas f name tr rr).2 ∧
    (fetchSchemas f name tr rr).2.serverName = name ∧
    (tr.failed = true → rr.failed = true →
      (fetchSchemas f name tr rr).2.tools = [] ∧
      (fetchSchemas f name tr rr).2.resources = []) := by
  refine ⟨?_, ?_, rfl, ?_⟩
  · unfold hasCachedSchemas fetchSchemas
    rw [lookupKey_setKey_self]
    rfl
  · unfold getCachedSchemas fetchSchemas
    rw [lookupKey_setKey_self]
  · intro ht hr
    cases tr <;> cases rr <;>
      simp_all [fetchSchemas, fetchTools, fetchResources, FetchResult.failed]

theorem fetchSchemas_caches_witness :
    ((FetchResult.failure : FetchResult RawTool).failed = true ∧
      (FetchResult.failure : FetchResult RawResource).failed = true) ∧
    (hasCachedSchemas
        (fetchSchemas (McpSchemaFetcher.mk []) "a" FetchResult.failure
          FetchResult.failure).1 "a" = true ∧
      (fetchSchemas (McpSchemaFetcher.mk []) "a" FetchResult.failure
          FetchResult.failure).2.tools = [] ∧
      (fetchSchemas (McpSchemaFetcher.mk []) "a" FetchResult.failure
          FetchResult.failure).2.resources = []) := by
  have h := fetchSchemas_caches (McpSchemaFetcher.mk []) "a"
    FetchResult.failure FetchResult.failure
  exact ⟨⟨rfl, rfl⟩, h.1, (h.2.2.2 rfl rfl).1, (h.2.2.2 rfl rfl).2⟩

/-!
Sanitization (C10).
-/

lemma isIdentChar_underscore : isIdentChar '_' = true := by decide

lemma sanitizeChar_idem (c : Char) : sanitizeChar (sanitizeChar c) = sanitizeChar c := by
  unfold sanitizeChar
  by_cases h : isIdentChar c = true
  · simp [h]
  · simp [h, isIdentChar_underscore]

lemma sanitizeChar_ident (c : Char) (h : isIdentChar c = true) :
    sanitizeChar c = c := by
  simp [sanitizeChar, h]

/-- Claim C10: identifier sanitization (for server names and for tool and
resource names) is idempotent, and a string consisting only of characters in
[A-Za-z0-9_] is returned unchanged. -/
theorem sanitize_idempotent (s : String) :
    sanitizeServerName (sanitizeServerName s) = sanitizeServerName s ∧
    sanitizeIdentifier (sanitizeIdentifier s) = sanitizeIdentifier s ∧
    ((∀ c ∈ s.data, isIdentChar c = true) →
      sanitizeServerName s = s ∧ sanitizeIdentifier s = s) := by
  have hmapidem : ∀ d : List Char,
      (d.map sanitizeChar).map sanitizeChar = d.map sanitizeChar := by
    intro d
    rw [List.map_map]
    exact List.map_congr_left fun c _ => sanitizeChar_idem c
  have hid : ∀ d : List Char, (∀ c ∈ d, isIdentChar c = true) →
      d.map sanitizeChar = d := by
    intro d hd
    have : d.map sanitizeChar = d.map id :=
      List.map_congr_left fun c hc => sanitizeChar_ident c (hd c hc)
    simpa using this
  refine ⟨?_, ?_, fun hall => ⟨?_, ?_⟩⟩
  · show String.mk ((s.data.map sanitizeChar).map sanitizeChar) =
      String.mk (s.data.map sanitizeChar)
    rw [hmapidem]
  · show String.mk ((s.data.map sanitizeChar).map sanitizeChar) =
      String.mk (s.data.map sanitizeChar)
    rw [hmapidem]
  · show String.mk (s.data.map sanitizeChar) = s
    rw [hid s.data hall]
  · show String.mk (s.data.map sanitizeChar) = s
    rw [hid s.data hall]

theorem sanitize_idempotent_witness :
    (∀ c ∈ ("my_server_1" : String).data, isIdentChar c = true) ∧
    sanitizeServerName "my_server_1" = "my_server_1" ∧
    sanitizeIdentifier "my_server_1" = "my_server_1" ∧
    sanitizeServerName (sanitizeServerName "my-server!") =
      sanitizeServerName "my-server!" :=
  ⟨by decide, ((sanitize_idempotent "my_server_1").2.2 (by decide)).1,
    ((sanitize_idempotent "my_server_1").2.2 (by decide)).2,
    (sanitize_idempotent "my-server!").1⟩

/-!
Bulk initialization (C1).
-/

/-- The status recorded for one attempted server. -/
def attemptStatus (E : ConnectEnv) (n : String) (c : McpServerConfig) :
    ConnectionStatus :=
  if attemptSucceeds E n c then ConnectionStatus.connected
  else ConnectionStatus.failed

lemma initializeClients_table (E : ConnectEnv) :
    ∀ (l : List (String × McpServerConfig)) (st : McpClientManager),
      (l.map Prod.fst).Nodup →
      (∀ k ∈ l.map Prod.fst,
        k ∉ st.connectionStatus.map Prod.fst ∧ k ∉ st.clients.map Prod.fst) →
      (initializeClients E st l).connectionStatus =
        st.connectionStatus ++ l.map (fun p => (p.1, attemptStatus E p.1 p.2)) ∧
      (initializeClients E st l).clients.map Prod.fst =
        st.clients.map Prod.fst ++
          (l.filter fun p => attemptSucceeds E p.1 p.2).map Prod.fst := by
  intro l
  induction l with
  | nil => intro st _ _; constructor <;> simp [initializeClients]
  | cons p rest ih =>
    intro st hnd habs
    have hp := habs p.1 (by simp)
    rw [List.map_cons] at hnd
    have hnd0 := List.nodup_cons.mp hnd
    have hpnot : p.1 ∉ rest.map Prod.fst := hnd0.1
    have hnd' : (rest.map Prod.fst).Nodup := hnd0.2
    have hfold : initializeClients E st (p :: rest) =
        initializeClients E (connectClient E st p.1 p.2) rest := rfl
    cases hs : attemptSucceeds E p.1 p.2 with
    | true =>
      rcases @connectClient_success E st p.1 p.2 hs with ⟨cl, hcc⟩
      have hstatus1 : (connectClient E st p.1 p.2).connectionStatus =
          st.connectionStatus ++ [(p.1, ConnectionStatus.connected)] := by
        rw [hcc]
        exact setKey_absent _ _ _ hp.1
      have hclients1 : (connectClient E st p.1 p.2).clients =
          st.clients ++ [(p.1, cl)] := by
        rw [hcc]
        exact setKey_absent _ _ _ hp.2
      have habs1 : ∀ k ∈ rest.map Prod.fst,
          k ∉ (connectClient E st p.1 p.2).connectionStatus.map Prod.fst ∧
          k ∉ (connectClient E st p.1 p.2).clients.map Prod.fst := by
        intro k hk
        have hk' := habs k (by simp [hk])
        have hkp : k ≠ p.1 := fun h => hpnot (h ▸ hk)
        rw [hstatus1, hclients1]
        constructor <;> simp [hk'.1, hk'.2, hkp]
      obtain ⟨ihs, ihc⟩ := ih (connectClient E st p.1 p.2) hnd' habs1
      rw [hfold]
      constructor
      · rw [ihs, hstatus1]
        simp [attemptStatus, hs]
      · rw [ihc, hclients1]
        simp [hs]
    | false =>
      have hcc := @connectClient_failure_state E st p.1 p.2 hs
      have hstatus1 : (connectClient E st p.1 p.2).connectionStatus =
          st.connectionStatus ++ [(p.1, ConnectionStatus.failed)] := by
        rw [hcc]
        exact setKey_absent _ _ _ hp.1
      have hclients1 : (connectClient E st p.1 p.2).clients = st.clients := by
        rw [hcc]
      have habs1 : ∀ k ∈ rest.map Prod.fst,
          k ∉ (connectClient E st p.1 p.2).connectionStatus.map Prod.fst ∧
          k ∉ (connectClient E st p.1 p.2).clients.map Prod.fst := by
        intro k hk
        have hk' := habs k (by simp [hk])
        have hkp : k ≠ p.1 := fun h => hpnot (h ▸ hk)
        rw [hstatus1, hclients1]
        constructor <;> simp [hk'.1, hk'.2, hkp]
      obtain ⟨ihs, ihc⟩ := ih (connectClient E st p.1 p.2) hnd' habs1
      rw [hfold]
      constructor
      · rw [ihs, hstatus1]
        simp [attemptStatus, hs]
      · rw [ihc, hclients1]
        simp [hs]

lemma countP_bnot {α : Type} (p : α → Bool) (l : List α) :
    l.countP (fun a => !(p a)) = l.length - l.countP p := by
  induction l with
  | nil => simp
  | cons a l ih =>
    have hle : l.countP p ≤ l.length := List.countP_le_length p
    by_cases h : p a = true <;>
      simp [List.countP_cons, h, ih] <;> omega

/-- Claim C1: connectAll over a mapping with N entries, of which K attempts
succeed, ends with exactly K connected entries and N-K failed entries in the
status table (so N entries total), and connectedNames of length K — for
every completion order (permutation) of the attempts, so no single failure
aborts or blocks the others. -/
theorem connectAll_counts (E : ConnectEnv)
    (l l1 : List (String × McpServerConfig))
    (hnd : (l.map Prod.fst).Nodup) (hperm : l1.Perm l) :
    (initializeClients E emptyManager l1).connectionStatus.countP
        (fun q => q.2 == ConnectionStatus.connected) =
      l.countP (fun p => attemptSucceeds E p.1 p.2) ∧
    (initializeClients E emptyManager l1).connectionStatus.countP
        (fun q => q.2 == ConnectionStatus.failed) =
      l.length - l.countP (fun p => attemptSucceeds E p.1 p.2) ∧
    (initializeClients E emptyManager l1).connectionStatus.length = l.length ∧
    (getConnectedServerNames (initializeClients E emptyManager l1)).length =
      l.countP (fun p => attemptSucceeds E p.1 p.2) := by
  have hnd1 : (l1.map Prod.fst).Nodup := ((hperm.map Prod.fst).nodup_iff).mpr hnd
  have habs : ∀ k ∈ l1.map Prod.fst,
      k ∉ emptyManager.connectionStatus.map Prod.fst ∧
      k ∉ emptyManager.clients.map Prod.fst := by
    intro k _
    constructor <;> simp [emptyManager]
  obtain ⟨hs, hc⟩ := initializeClients_table E l1 emptyManager hnd1 habs
  have hsimp : (initializeClients E emptyManager l1).connectionStatus =
      l1.map (fun p => (p.1, attemptStatus E p.1 p.2)) := by
    rw [hs]; rfl
  have hcomp1 : ((fun q : String × ConnectionStatus =>
        q.2 == ConnectionStatus.connected) ∘
      (fun p : String × McpServerConfig => (p.1, attemptStatus E p.1 p.2))) =
      fun p => attemptSucceeds E p.1 p.2 := by
    funext p
    cases hsp : attemptSucceeds E p.1 p.2 <;>
      simp [Function.comp, attemptStatus, hsp]
  have hcomp2 : ((fun q : String × ConnectionStatus =>
        q.2 == ConnectionStatus.failed) ∘
      (fun p : String × McpServerConfig => (p.1, attemptStatus E p.1 p.2))) =
      fun p => !(attemptSucceeds E p.1 p.2) := by
    funext p
    cases hsp : attemptSucceeds E p.1 p.2 <;>
      simp [Function.comp, attemptStatus, hsp]
  have hcount1 := hperm.countP_eq (fun p => attemptSucceeds E p.1 p.2)
  refine ⟨?_, ?_, ?_, ?_⟩
  · rw [hsimp, List.countP_map, hcomp1, hcount1]
  · rw [hsimp, List.countP_map, hcomp2, countP_bnot, hperm.length_eq, hcount1]
  · rw [hsimp, List.length_map, hperm.length_eq]
  · have : getConnectedServerNames (initializeClients E emptyManager l1) =
        (l1.filter fun p => attemptSucceeds E p.1 p.2).map Prod.fst := by
      unfold getConnectedServerNames
      rw [hc]; rfl
    rw [this, List.length_map, ← List.countP_eq_length_filter, hcount1]

theorem connectAll_counts_witness :
    (([("a", exCfgOk), ("b", exCfgBad)].map
        (Prod.fst (β := McpServerConfig))).Nodup ∧
      ([("b", exCfgBad), ("a", exCfgOk)]).Perm [("a", exCfgOk), ("b", exCfgBad)]) ∧
    ((initializeClients exEnv emptyManager
          [("b", exCfgBad), ("a", exCfgOk)]).connectionStatus.countP
        (fun q => q.2 == ConnectionStatus.connected) =
      ([("a", exCfgOk), ("b", exCfgBad)]).countP
        (fun p => attemptSucceeds exEnv p.1 p.2) ∧
      (initializeClients exEnv emptyManager
          [("b", exCfgBad), ("a", exCfgOk)]).connectionStatus.countP
        (fun q => q.2 == ConnectionStatus.failed) =
      ([("a", exCfgOk), ("b", exCfgBad)]).length -
        ([("a", exCfgOk), ("b", exCfgBad)]).countP
          (fun p => attemptSucceeds exEnv p.1 p.2) ∧
      (initializeClients exEnv emptyManager
          [("b", exCfgBad), ("a", exCfgOk)]).connectionStatus.length =
        ([("a", exCfgOk), ("b", exCfgBad)]).length ∧
      (getConnectedServerNames (initializeClients exEnv emptyManager
          [("b", exCfgBad), ("a", exCfgOk)])).length =
        ([("a", exCfgOk), ("b", exCfgBad)]).countP
          (fun p => attemptSucceeds exEnv p.1 p.2)) :=
  ⟨⟨by decide, by decide⟩,
    connectAll_counts exEnv [("a", exCfgOk), ("b", exCfgBad)]
      [("b", exCfgBad), ("a", exCfgOk)] (by decide) (by decide)⟩

/-!
Equivalence of the validator with the structural-violation predicate (C4).
-/

lemma isErr_map {ε α β : Type} (g : α → β) (e : Except ε α) :
    isErr (e.map g) = isErr e := by
  cases e <;> rfl

lemma validateStdio_isError (sc : JsonValue) :
    isErr (validateStdio sc) = specStdioViolation sc := by
  unfold validateStdio specStdioViolation
  cases hc : getField sc "command" with
  | none => rfl
  | some v =>
    cases v with
    | null => rfl
    | bool b => rfl
    | num n => rfl
    | obj fs => rfl
    | arr xs => rfl
    | str cmd =>
      cases ha : getField sc "args" with
      | none => rfl
      | some w =>
        cases w with
        | null => rfl
        | bool b => rfl
        | num n => rfl
        | obj fs => rfl
        | str s => rfl
        | arr xs =>
          cases hall : xs.all JsonValue.isStringVal with
          | false => simp [hall, isErr]
          | true =>
            cases he : getField sc "env" with
            | none => simp [hall, isErr]
            | some e =>
              cases heo : e.isNonNullObject with
              | false => simp [hall, heo, isErr]
              | true =>
                cases hev : (valuesOf e).all JsonValue.isStringVal with
                | false => simp [hall, heo, hev, isErr]
                | true => simp [hall, heo, hev, isErr]

lemma validateHttp_isError (kind : HttpKind) (sc : JsonValue) :
    isErr (validateHttp kind sc) = specHttpViolation sc := by
  unfold validateHttp specHttpViolation
  cases hu : getField sc "url" with
  | none => rfl
  | some v =>
    cases v with
    | null => rfl
    | bool b => rfl
    | num n => rfl
    | obj fs => rfl
    | arr xs => rfl
    | str url =>
      cases hh : getField sc "headers" with
      | none => rfl
      | some w =>
        cases w with
        | null => rfl
        | bool b => rfl
        | num n => rfl
        | obj fs => rfl
        | str s => rfl
        | arr hs =>
          cases hall : hs.all (fun hv => hv.isNonNullObject &&
              (valuesOf hv).all JsonValue.isStringVal) with
          | false => simp [hall, isErr]
          | true => simp [hall, isErr]

lemma validateServerEntry_isError (sc : JsonValue) :
    isErr (validateServerEntry sc) = specEntryViolation sc := by
  unfold validateServerEntry specEntryViolation
  cases hb : isBridgeEntry sc with
  | true => simp [hb, isErr]
  | false =>
    cases hobj : sc.isNonNullObject with
    | false => simp [hb, hobj, isErr]
    | true =>
      simp only [hb, hobj, Bool.not_false, Bool.not_true, Bool.true_and,
        Bool.false_or, if_false, Bool.false_eq_true, if_true]
      unfold effectiveTransport specTransportViolation specIsStdioEntry
        specIsHttpEntry
      cases ht : getField sc "transport" with
      | none =>
        simp [validateStdio_isError, isErr_map]
      | some v =>
        cases v with
        | null => simp [validateStdio_isError, isErr_map]
        | bool b => simp [isErr]
        | num n => simp [isErr]
        | arr xs => simp [isErr]
        | obj fs => simp [isErr]
        | str t =>
          by_cases h1 : t = "stdio"
          · subst h1
            simp [validateStdio_isError, isErr_map]
          · by_cases h2 : t = "streamable_http"
            · subst h2
              simp [validateHttp_isError, isErr_map]
            · by_cases h3 : t = "sse"
              · subst h3
                simp [validateHttp_isError, isErr_map]
              · have b1 : (t == "stdio") = false := beq_eq_false_iff_ne.mpr h1
                have b2 : (t == "streamable_http") = false :=
                  beq_eq_false_iff_ne.mpr h2
                have b3 : (t == "sse") = false := beq_eq_false_iff_ne.mpr h3
                simp [b1, b2, b3, isErr]

lemma validateServers_isError (entries : List (String × JsonValue)) :
    ∀ acc, isErr (validateServers entries acc) =
      entries.any (fun p => specEntryViolation p.2) := by
  induction entries with
  | nil => intro acc; rfl
  | cons e rest ih =>
    intro acc
    obtain ⟨name, sc⟩ := e
    show isErr (validateServers ((name, sc) :: rest) acc) = _
    unfold validateServers
    cases hv : validateServerEntry sc with
    | error msg =>
      have : specEntryViolation sc = true := by
        rw [← validateServerEntry_isError, hv]; rfl
      simp [this, isErr]
    | ok o =>
      have hfalse : specEntryViolation sc = false := by
        rw [← validateServerEntry_isError, hv]; rfl
      cases o with
      | none => simp [hfalse, ih]
      | some cfg => simp [hfalse, ih]

/-- Claim C4 counterexample input: server a has a null transport with
otherwise valid stdio fields (the code defaults null to stdio and accepts
it, while the claim's condition "transport present but not one of the three
kinds" holds); server b is a bridge-sentinel entry with malformed args (the
code skips it before validating, while the claim's stdio conditions hold). -/
def exC4 : JsonValue :=
  JsonValue.obj [("mcpServers", JsonValue.obj
    [("a", JsonValue.obj [("transport", JsonValue.null),
                          ("command", JsonValue.str "c"),
                          ("args", JsonValue.arr [])]),
     ("b", JsonValue.obj [("command", JsonValue.str "mcp-rpc-bridge"),
                          ("args", JsonValue.num 5)])])]

/-- Claim C4, as stated, is false: `exC4` satisfies the claim's list of
structural violations (a present transport that is not one of the three
strings; a stdio entry whose args is not an array of strings), yet
validateMcpConfig accepts it. -/
theorem validateMcpConfig_claim_counterexample :
    claimedConfigViolation exC4 = true ∧
    isErr (validateMcpConfig exC4) = false :=
  ⟨rfl, rfl⟩

/-- Claim C4 (amended): validateMcpConfig throws exactly when a structural
violation holds, where (differently from the claim as stated) a transport
field that is present with value null counts as absent (the code's nullish
coalescing defaults it to stdio), and an entry skipped as the bridge
sentinel (an object whose command is mcp-rpc-bridge) is exempt from the
per-entry conditions.  Otherwise validation succeeds. -/
theorem validateMcpConfig_error_iff (c : JsonValue) :
    isErr (validateMcpConfig c) = specConfigViolation c := by
  unfold validateMcpConfig specConfigViolation claimedTopLevelViolation
  cases hobj : c.isNonNullObject with
  | false => simp [isErr, hobj]
  | true =>
    cases hm : getField c "mcpServers" with
    | none => simp [isErr, hobj, hm]
    | some m =>
      cases hmo : m.isNonNullObject with
      | false => simp [isErr, hobj, hm, hmo]
      | true =>
        simp [hobj, hm, hmo, isErr_map, validateServers_isError]

/-!
Sanitized keys and bridge exclusion in the validated output (C5).
-/

lemma sanitizeServerName_chars (s : String) :
    ∀ ch ∈ (sanitizeServerName s).data, isIdentChar ch = true := by
  intro ch hch
  have hch' : ch ∈ s.data.map sanitizeChar := hch
  rcases List.mem_map.mp hch' with ⟨c, _, hc⟩
  subst hc
  unfold sanitizeChar
  by_cases h : isIdentChar c = true
  · simp [h]
  · simp [h, isIdentChar_underscore]

lemma validateStdio_ok_command (sc : JsonValue) (cmd : String)
    (args : List String) (env : Option (List (String × String)))
    (h : validateStdio sc = Except.ok (McpServerConfig.stdio cmd args env)) :
    getField sc "command" = some (JsonValue.str cmd) := by
  unfold validateStdio at h
  repeat' split at h
  all_goals simp_all

lemma validateServerEntry_no_bridge (sc : JsonValue) (cmd : String)
    (args : List String) (env : Option (List (String × String)))
    (h : validateServerEntry sc =
      Except.ok (some (McpServerConfig.stdio cmd args env))) :
    cmd ≠ "mcp-rpc-bridge" := by
  unfold validateServerEntry at h
  by_cases hb : isBridgeEntry sc = true
  · rw [if_pos hb] at h
    simp at h
  · rw [if_neg hb] at h
    cases hobj : sc.isNonNullObject with
    | false => rw [if_neg (by simp [hobj])] at h; simp at h
    | true =>
      rw [if_pos (by simp [hobj])] at h
      intro hcmd
      subst hcmd
      apply hb
      unfold isBridgeEntry
      rw [hobj]
      cases ht : effectiveTransport sc with
      | none => rw [ht] at h; simp at h
      | some t =>
        rw [ht] at h
        dsimp only at h
        have hcommand : getField sc "command" =
            some (JsonValue.str "mcp-rpc-bridge") := by
          by_cases h1 : (t == "stdio") = true
          · rw [if_pos h1] at h
            cases hv : validateStdio sc with
            | error e => rw [hv] at h; simp [Except.map] at h
            | ok cfg =>
              rw [hv] at h
              simp only [Except.map] at h
              cases h
              exact validateStdio_ok_command sc _ args env hv
          · rw [if_neg h1] at h
            by_cases h2 : (t == "streamable_http") = true
            · rw [if_pos h2] at h
              cases hv : validateHttp HttpKind.streamableHttp sc with
              | error e => rw [hv] at h; simp [Except.map] at h
              | ok cfg =>
                rw [hv] at h
                simp only [Except.map] at h
                cases h
                exfalso
                unfold validateHttp at hv
                repeat' split at hv
                all_goals simp_all
            · rw [if_neg h2] at h
              cases hv : validateHttp HttpKind.sse sc with
              | error e => rw [hv] at h; simp [Except.map] at h
              | ok cfg =>
                rw [hv] at h
                simp only [Except.map] at h
                cases h
                exfalso
                unfold validateHttp at hv
                repeat' split at hv
                all_goals simp_all
        rw [hcommand]
        simp

lemma setKey_forall {α : Type} (P : String × α → Prop)
    (m : List (String × α)) (k : String) (v : α)
    (hm : ∀ p ∈ m, P p) (hv : P (k, v)) : ∀ p ∈ setKey m k v, P p := by
  unfold setKey
  split
  · intro p hp
    rcases List.mem_map.mp hp with ⟨q, hq, hqe⟩
    by_cases h : q.1 = k
    · rw [if_pos h] at hqe
      rw [← hqe]
      exact hv
    · rw [if_neg h] at hqe
      rw [← hqe]
      exact hm q hq
  · intro p hp
    rcases List.mem_append.mp hp with h | h
    · exact hm p h
    · rw [List.mem_singleton.mp h]
      exact hv

/-- The invariant carried through the validation loop: a validated entry has
a fully sanitized key and never carries the bridge-sentinel command. -/
def GoodEntry (p : String × McpServerConfig) : Prop :=
  (∀ ch ∈ p.1.data, isIdentChar ch = true) ∧
  ∀ cmd args env, p.2 = McpServerConfig.stdio cmd args env →
    cmd ≠ "mcp-rpc-bridge"

lemma validateServers_good :
    ∀ (entries : List (String × JsonValue)) acc out,
      validateServers entries acc = Except.ok out →
      (∀ p ∈ acc, GoodEntry p) → ∀ p ∈ out, GoodEntry p := by
  intro entries
  induction entries with
  | nil =>
    intro acc out h hacc
    unfold validateServers at h
    cases h
    exact hacc
  | cons e rest ih =>
    intro acc out h hacc
    obtain ⟨name, sc⟩ := e
    unfold validateServers at h
    cases hv : validateServerEntry sc with
    | error msg => rw [hv] at h; simp at h
    | ok o =>
      rw [hv] at h
      cases o with
      | none => exact ih acc out h hacc
      | some cfg =>
        refine ih _ out h (setKey_forall GoodEntry acc _ cfg hacc ?_)
        constructor
        · exact sanitizeServerName_chars name
        · intro cmd args env hcfg
          subst hcfg
          exact validateServerEntry_no_bridge sc cmd args env hv

/-- Claim C5: every key of the mapping returned by validateMcpConfig
consists only of characters in [A-Za-z0-9_] (the sanitizer replaced every
other character with an underscore), and no returned entry carries the
reserved bridge-sentinel command mcp-rpc-bridge (such entries are skipped
without an error). -/
theorem validateMcpConfig_keys_sanitized (c : JsonValue) (f : McpConfigFile)
    (hok : validateMcpConfig c = Except.ok f) :
    ∀ p ∈ f.mcpServers,
      (∀ ch ∈ p.1.data, isIdentChar ch = true) ∧
      ∀ cmd args env, p.2 = McpServerConfig.stdio cmd args env →
        cmd ≠ "mcp-rpc-bridge" := by
  unfold validateMcpConfig at hok
  cases hobj : c.isNonNullObject with
  | false => rw [if_neg (by simp [hobj])] at hok; simp at hok
  | true =>
    rw [if_pos (by simp [hobj])] at hok
    cases hm : getField c "mcpServers" with
    | none => rw [hm] at hok; simp at hok
    | some m =>
      rw [hm] at hok
      dsimp only at hok
      cases hmo : m.isNonNullObject with
      | false => rw [if_neg (by simp [hmo])] at hok; simp at hok
      | true =>
        rw [if_pos (by simp [hmo])] at hok
        cases hv : validateServers (entriesOf m) [] with
        | error e => rw [hv] at hok; simp [Except.map] at hok
        | ok out =>
          rw [hv] at hok
          simp only [Except.map] at hok
          cases hok
          have hgood := validateServers_good (entriesOf m) [] out hv
            (by intro p hp; simp at hp)
          intro p hp
          exact hgood p hp

/-- A configuration whose server name needs sanitizing. -/
def exC5 : JsonValue :=
  JsonValue.obj [("mcpServers", JsonValue.obj
    [("my-server!", JsonValue.obj [("command", JsonValue.str "x"),
                                   ("args", JsonValue.arr [])])])]

/-- The validated output for `exC5`: the key is sanitized. -/
def exC5File : McpConfigFile :=
  { mcpServers := [("my_server_", McpServerConfig.stdio "x" [] none)] }

theorem validateMcpConfig_keys_sanitized_witness :
    validateMcpConfig exC5 = Except.ok exC5File ∧
    ∀ p ∈ exC5File.mcpServers,
      (∀ ch ∈ p.1.data, isIdentChar ch = true) ∧
      ∀ cmd args env, p.2 = McpServerConfig.stdio cmd args env →
        cmd ≠ "mcp-rpc-bridge" :=
  ⟨rfl, validateMcpConfig_keys_sanitized exC5 exC5File rfl⟩
